import Mathlib

/-
Verification of the WEI workflow-orchestration engine against its
natural-language specification.

Shallow embedding of:
  - src/rpl_wei/executors/tcp_executor.py  (wei_tcp_callback, response handling)
  - src/wei/modules/rest_module.py         (action-lock state machine, /action acquire)
  - src/wei/core/workflow.py               (WorkflowRunner.init_flow / run_flow)

Data classes (Module, Step, Workflow, Workcell, ModuleStatus) are not under
src/ (they live in wei.types / wei.core.data_classes / wei.core.workcell);
they are modelled from the spec where noted.

Python dicts are modelled as insertion-ordered association lists with unique
keys (Python 3.7+ dict semantics: setting an existing key keeps its position,
a new key is appended at the end). Python exceptions are modelled with
`Except String`; error messages are abbreviated but raised at the same
program points as in the source.
-/

namespace Wei

/-- A Python value as it appears in step args, payloads and location tables.
Only strings and ints are needed by the claims; other YAML scalars behave
like `vint` for the operations modelled here (they are not strings). -/
inductive Value where
  | vstr : String → Value
  | vint : Int → Value
deriving DecidableEq

/-- Python `str(value)`. -/
def pyStr : Value → String
  | .vstr s => s
  | .vint n => toString n

/-- Python `d[key]` for a string-keyed dict (association-list lookup). -/
def alookup {α : Type} : List (String × α) → String → Option α
  | [], _ => none
  | (k, v) :: rest, key => if k = key then some v else alookup rest key

/-- Python `d[key] = v`: replace the value at an existing key in place,
or append a new key at the end. -/
def aset {α : Type} : List (String × α) → String → α → List (String × α)
  | [], key, v => [(key, v)]
  | (k, w) :: rest, key, v =>
    if k = key then (k, v) :: rest else (k, w) :: aset rest key v

/-- Bool-valued prefix test on character lists. -/
def listPre : List Char → List Char → Bool
  | [], _ => true
  | _ :: _, [] => false
  | a :: as, b :: bs => if a = b then listPre as bs else false

/-- Bool-valued substring test on character lists (`pat` occurs in the list). -/
def listContains (pat : List Char) : List Char → Bool
  | [] => pat.isEmpty
  | a :: t => if listPre pat (a :: t) then true else listContains pat t

/-- Python `pat in s` for strings. -/
def strContains (s pat : String) : Bool := listContains pat.data s.data

/-- `exOk e` is true exactly when `e` is a success value. -/
def exOk {α : Type} : Except String α → Bool
  | .ok _ => true
  | .error _ => false

/-- Modelled from the spec: a Module is identified by its unique name
(§3; the Module data class is not under src/; only the name is consulted
by the code under verification). -/
structure Module where
  name : String
deriving DecidableEq

/-- Modelled from the spec: a Step of a workflow (§3; the Step data class is
not under src/). `args` is the step's argument dict. -/
structure Step where
  name : String
  module : String
  command : String
  args : List (String × Value)
deriving DecidableEq

/-- Modelled from the spec: a Workflow is its declared module list plus the
ordered flowdef (§3). -/
structure Workflow where
  modules : List Module
  flowdef : List Step
deriving DecidableEq

/-- Modelled from the spec: a Workcell holds the module registry and the
per-module location tables (§3; the Workcell class is not under src/).
`find_step_module` returns the module with the given name, if any. -/
structure Workcell where
  modules : List Module
  locations : List (String × List (String × Value))
deriving DecidableEq

/-- Modelled from the spec: `Workcell.find_step_module(name)` looks the
module up by name in the workcell registry. -/
def Workcell.find_step_module (wc : Workcell) (name : String) : Option Module :=
  wc.modules.find? (fun m => decide (m.name = name))

/-! ## TCP executor (src/rpl_wei/executors/tcp_executor.py) -/

/-- The Python expression a received TCP response text parses to.
`eval` accepts arbitrary Python source; a response can therefore be a plain
dict literal, another literal, or code whose evaluation performs an
observable side effect (modelled by `callEffect`, which names the effect
and wraps the expression it returns). -/
inductive PyExpr where
  | dict : List (String × Value) → PyExpr
  | lit : Value → PyExpr
  | callEffect : String → PyExpr → PyExpr
deriving DecidableEq

/-- A Python runtime object produced by evaluating a response expression. -/
inductive PyObj where
  | dict : List (String × Value) → PyObj
  | lit : Value → PyObj
deriving DecidableEq

/-- Python `eval` on a response expression: returns the list of side effects
performed during evaluation together with the resulting object. -/
def pyEval : PyExpr → List String × PyObj
  | .dict d => ([], .dict d)
  | .lit v => ([], .lit v)
  | .callEffect eff e =>
    let r := pyEval e
    (eff :: r.1, r.2)

/-- Embeds lines 16-22 of src/rpl_wei/executors/tcp_executor.py: the received
response text (modelled by the Python expression it parses to) is passed to
`eval`, and `action_response` / `action_msg` / `action_log` are then read
with `.get` (which yields `None` for a missing key, and raises
AttributeError when the evaluated object is not a dict). The returned pair
is (side effects performed by evaluating the response, result or
exception). -/
def wei_tcp_callback (resp : PyExpr) :
    List String × Except String (Option Value × Option Value × Option Value) :=
  let r := pyEval resp
  match r.2 with
  | .dict d =>
    (r.1, .ok (alookup d ("action_response"), alookup d ("action_msg"),
               alookup d ("action_log")))
  | .lit _ => (r.1, .error ("AttributeError"))

/-! ## REST module action lock (src/wei/modules/rest_module.py) -/

/-- Modelled from the spec: ModuleStatus enum INIT/IDLE/BUSY/ERROR (§3;
wei.types is not under src/). -/
inductive ModuleStatus where
  | INIT
  | IDLE
  | BUSY
  | ERROR
deriving DecidableEq

/-- The module-side state consulted and mutated by the action-lock
protocol: current status plus the recorded error message. -/
structure ModuleState where
  status : ModuleStatus
  error : Option String
deriving DecidableEq

/-- src/wei/modules/rest_module.py lines 189-199 (`get_action_lock`):
transition IDLE → BUSY, otherwise raise. -/
def get_action_lock (st : ModuleState) : Except String ModuleState :=
  if st.status = ModuleStatus.IDLE then .ok { st with status := ModuleStatus.BUSY }
  else .error ("Module is not ready to accept actions")

/-- src/wei/modules/rest_module.py lines 201-209 (`release_action_lock`):
transition BUSY → IDLE, otherwise leave the state unchanged (only prints). -/
def release_action_lock (st : ModuleState) : ModuleState :=
  if st.status = ModuleStatus.BUSY then { st with status := ModuleStatus.IDLE }
  else st

/-- Result of the acquire phase of the /action endpoint: the module state
afterwards, the HTTP status code of the response, and whether the action
was admitted. -/
structure AcquireOutcome where
  state : ModuleState
  httpStatus : Nat
  accepted : Bool
deriving DecidableEq

/-- src/wei/modules/rest_module.py lines 333-340: the /action endpoint first
tries `get_action_lock`; on an exception it sets the response status to
409 CONFLICT and returns a failed StepResponse without touching the module
state; on success the module is now BUSY and the action proceeds (200). -/
def action_acquire (st : ModuleState) : AcquireOutcome :=
  match get_action_lock st with
  | .ok st2 => { state := st2, httpStatus := 200, accepted := true }
  | .error _ => { state := st, httpStatus := 409, accepted := false }

/-! ## Workflow runner (src/wei/core/workflow.py)

`init_flow` mutates the Workflow's Step objects in place (assignments into
`step.args` at lines 162, 177, 184). The embedding makes that state passing
explicit: besides the list of runner entries, `initSteps`/`init_flow` return
the post-state of `workflow.flowdef`, i.e. the very Step values the runner
entries alias after resolution. -/

/-- src/wei/core/workflow.py lines 157-162: one pass over `step.args.items()`.
If `str(value)` matches a registered location name for the module, the
pre-substitution value is recorded in the `locations` side dict and the arg
is overwritten with `workcell.locations[module][value]` — note the lookup
uses the unconverted `value`, so a non-string value whose text form matches
a location name raises KeyError. Returns (new args, locations side dict). -/
def locSubArgs (modLocs : List (String × Value)) :
    List (String × Value) → Except String (List (String × Value) × List (String × Value))
  | [] => .ok ([], [])
  | (k, v) :: rest =>
    match alookup modLocs (pyStr v) with
    | some lv =>
      match v with
      | .vstr _ =>
        match locSubArgs modLocs rest with
        | .error e => .error e
        | .ok (as2, ls2) => .ok ((k, lv) :: as2, (k, v) :: ls2)
      | _ => .error ("KeyError")
    | none =>
      match locSubArgs modLocs rest with
      | .error e => .error e
      | .ok (as2, ls2) => .ok ((k, v) :: as2, ls2)

/-- src/wei/core/workflow.py lines 150-162: location substitution runs only
when the step has a non-empty args dict, the workcell has a non-empty
locations table, and the step's module has registered locations. -/
def substituteLocations (wc : Workcell) (step : Step) :
    Except String (Step × List (String × Value)) :=
  if step.args.isEmpty || wc.locations.isEmpty then .ok (step, [])
  else
    match alookup wc.locations step.module with
    | some modLocs =>
      match locSubArgs modLocs step.args with
      | .error e => .error e
      | .ok (args2, locs) => .ok ({ step with args := args2 }, locs)
    | none => .ok (step, [])

/-- src/wei/core/workflow.py lines 171-173: a payload key is prefixed with
"payload." only when it does not already contain that substring. -/
def normKey (pk : String) : String :=
  if strContains pk ("payload.") then pk else String.append ("payload.") pk

/-- Python `arg_values.index(key)` followed by `arg_keys[idx]`: the arg key
at the first position whose value equals the target, if any. -/
def firstKeyWithVal : List (String × Value) → Value → Option String
  | [], _ => none
  | (k, v) :: rest, target =>
    if v = target then some k else firstKeyWithVal rest target

/-- src/wei/core/workflow.py lines 170-177: inject one payload entry. The
search runs over the snapshot of args taken before the payload loop (the
`zip(*step.args.items())` at line 169), while the assignment mutates the
live args dict. -/
def injectOne (snapshot args : List (String × Value)) (pk : String) (pv : Value) :
    List (String × Value) :=
  match firstKeyWithVal snapshot (Value.vstr (normKey pk)) with
  | some argKey => aset args argKey pv
  | none => args

/-- src/wei/core/workflow.py lines 170-177: the loop over `payload.items()`. -/
def injectPayload (snapshot : List (String × Value)) :
    List (String × Value) → List (String × Value) → List (String × Value)
  | [], args => args
  | (pk, pv) :: rest, args => injectPayload snapshot rest (injectOne snapshot args pk pv)

/-- src/wei/core/workflow.py lines 179-184: if the snapshot of arg values
contains the literal "local_run_results", overwrite the first such arg with
`str(self.result_dir)`. -/
def injectResultDir (snapshot args : List (String × Value)) (resultDir : String) :
    List (String × Value) :=
  match firstKeyWithVal snapshot (Value.vstr ("local_run_results")) with
  | some argKey => aset args argKey (Value.vstr resultDir)
  | none => args

/-- src/wei/core/workflow.py lines 164-184: the payload-injection block of
the loop body. When a payload dict is present and the step's args dict is
empty (or not a dict), the rest of the loop body is skipped via `continue`
(modelled by `none`), so the step is never appended to the runner's list.
Otherwise the payload entries and then the result directory are injected
into the args, searching over the snapshot of the args taken at line 169
(after location substitution, before any payload mutation). -/
def payloadResolve (payload : Option (List (String × Value))) (rd : String)
    (step2 : Step) : Option Step :=
  match payload with
  | some p =>
    if step2.args.isEmpty then none
    else some { step2 with
                args := injectResultDir step2.args (injectPayload step2.args p step2.args) rd }
  | none => some step2

/-- One `arg_dict` built by `init_flow` for the executor (lines 137,
188-198): the locations side dict, the (post-resolution) step, the module
it targets and the simulate flag. The logger and callbacks entries carry no
data relevant to the claims and are omitted. -/
structure ResolvedEntry where
  locations : List (String × Value)
  step : Step
  step_module : Module
  simulate : Bool
deriving DecidableEq

/-- src/wei/core/workflow.py lines 131-135: every module declared by the
workflow must be present in the workcell, checked before the step loop. -/
def checkDeclaredModules (wf : Workflow) (wc : Workcell) : Except String Unit :=
  if wf.modules.all (fun m => (wc.find_step_module m.name).isSome) then .ok ()
  else .error ("Module not in Workcell")

/-- src/wei/core/workflow.py lines 136-198: the per-step loop of `init_flow`.
For each step in order: look up the step's module in the workcell (raise if
absent), check the module is declared by the workflow (raise if not),
substitute locations, then — when a payload dict is present — skip the rest
of the loop body via `continue` when args is empty (lines 166-167, so such
a step is never appended to the runner's list), otherwise inject the
payload and the result directory. Returns (runner entries, post-state of
the flowdef's steps). -/
def initSteps (wf : Workflow) (wc : Workcell)
    (payload : Option (List (String × Value))) (resultDir : String)
    (simulate : Bool) :
    List Step → Except String (List ResolvedEntry × List Step)
  | [] => .ok ([], [])
  | step :: rest =>
    match wc.find_step_module step.module with
    | none => .error (String.append ("No module found for step module: ") step.module)
    | some step_module =>
      if wf.modules.any (fun m => decide (step.module = m.name)) then
        match substituteLocations wc step with
        | .error e => .error e
        | .ok (step2, locs) =>
          match payloadResolve payload resultDir step2 with
          | none =>
            match initSteps wf wc payload resultDir simulate rest with
            | .error e => .error e
            | .ok (entries, post) => .ok (entries, step2 :: post)
          | some step3 =>
            match initSteps wf wc payload resultDir simulate rest with
            | .error e => .error e
            | .ok (entries, post) =>
              .ok ({ locations := locs, step := step3, step_module := step_module,
                     simulate := simulate } :: entries, step3 :: post)
      else .error (String.append (String.append ("Module ") step.module) (" not in flow modules"))

/-- src/wei/core/workflow.py lines 102-199 (`init_flow`): declared-module
check, then the per-step loop. -/
def init_flow (wf : Workflow) (wc : Workcell)
    (payload : Option (List (String × Value))) (resultDir : String)
    (simulate : Bool) : Except String (List ResolvedEntry × List Step) :=
  match checkDeclaredModules wf wc with
  | .error e => .error e
  | .ok _ => initSteps wf wc payload resultDir simulate wf.flowdef

/-- A step outcome as recorded in the run history: the stringified
(action_response, action_msg, action_log) triple (lines 233-238). -/
structure StepOutcome where
  action_response : String
  action_msg : String
  action_log : String
deriving DecidableEq

/-- One POST to the location-occupancy service
(http://localhost:8000/wc/locations/{location}/set?run_id=...): the
location name taken from the step's locations side dict and the run_id
query parameter sent (lines 239-252). -/
structure LocUpdate where
  location : Value
  run_id : String
deriving DecidableEq

/-- The dict returned by `run_flow` (lines 253-258) plus the sequence of
location-occupancy POSTs it issued as observable side effects. -/
structure RunResult where
  run_dir : String
  run_id : String
  payload : Option (List (String × Value))
  hist : List (String × StepOutcome)
  updates : List LocUpdate
deriving DecidableEq

/-- src/wei/core/workflow.py lines 232-252: the step-execution loop. For
each runner entry in order: execute the step (the StepExecutor is an
external collaborator, modelled by `exec1`), record the outcome in `hist`
under the step's name, then — if the locations side dict has a "source"
key — POST run_id "" for it, and — if it has a "target" key — POST the
run's id for it. -/
def runSteps (exec1 : ResolvedEntry → StepOutcome) (runId : String) :
    List ResolvedEntry → List (String × StepOutcome) → List LocUpdate →
    List (String × StepOutcome) × List LocUpdate
  | [], hist, updates => (hist, updates)
  | e :: rest, hist, updates =>
    let outcome := exec1 e
    let hist2 := aset hist e.step.name outcome
    let upd2 := updates ++
      ((match alookup e.locations ("source") with
        | some v => [{ location := v, run_id := ("") }]
        | none => []) ++
       (match alookup e.locations ("target") with
        | some v => [{ location := v, run_id := runId }]
        | none => []))
    runSteps exec1 runId rest hist2 upd2

/-- src/wei/core/workflow.py lines 201-258 (`run_flow`): re-resolve the
steps via `init_flow`, then run the execution loop and assemble the
result dict. -/
def run_flow (wf : Workflow) (wc : Workcell)
    (payload : Option (List (String × Value))) (resultDir runDir runId : String)
    (simulate : Bool) (exec1 : ResolvedEntry → StepOutcome) :
    Except String RunResult :=
  match init_flow wf wc payload resultDir simulate with
  | .error e => .error e
  | .ok (entries, _post) =>
    let r := runSteps exec1 runId entries [] []
    .ok { run_dir := runDir, run_id := runId, payload := payload,
          hist := r.1, updates := r.2 }

/-! ## Observation helpers and invariant-side definitions -/

/-- The Step fields other than `args`: name, module and command. -/
def stepSig (s : Step) : String × String × String := (s.name, s.module, s.command)

/-- The location table registered for a module (empty when the module has
none). -/
def modLocsOf (wc : Workcell) (mod : String) : List (String × Value) :=
  match alookup wc.locations mod with
  | some ml => ml
  | none => []

/-- A single arg value is stable under a further resolution pass: its text
form is not a registered location name for the module, it is not a payload
reference targeted by the payload, and it is not the result-dir sentinel. -/
def argStable (wc : Workcell) (p : Option (List (String × Value)))
    (mod : String) (v : Value) : Bool :=
  (alookup (modLocsOf wc mod) (pyStr v)).isNone &&
    (match p with
     | none => true
     | some pl =>
       pl.all (fun q => decide (v ≠ Value.vstr (normKey q.1))) &&
         decide (v ≠ Value.vstr ("local_run_results")))

/-- Every arg of every step in the list is stable under a further
resolution pass. -/
def stepsStable (wc : Workcell) (p : Option (List (String × Value)))
    (steps : List Step) : Bool :=
  steps.all (fun s => s.args.all (fun kv => argStable wc p s.module kv.2))

/-- The post-state flowdef of a successful `init_flow` result. -/
def postOf : Except String (List ResolvedEntry × List Step) → Option (List Step)
  | .ok (_, post) => some post
  | .error _ => none

/-- True when `init_flow` succeeded and every runner entry has an empty
locations side dict. -/
def entriesLocsEmpty : Except String (List ResolvedEntry × List Step) → Bool
  | .ok (es, _) => es.all (fun e => e.locations.isEmpty)
  | .error _ => false

/-- The location-occupancy POSTs issued by a run (empty for a failed run
construction). -/
def updatesRes : Except String RunResult → List LocUpdate
  | .ok rr => rr.updates
  | .error _ => []

/-- Concatenating map over a list. -/
def catMap {α β : Type} (f : α → List β) : List α → List β
  | [] => []
  | a :: t => f a ++ catMap f t

/-- The occupancy POSTs one runner entry gives rise to: the source location
with the empty run id, then the target location with the run's id. -/
def stepLocUpdates (runId : String) (e : ResolvedEntry) : List LocUpdate :=
  (match alookup e.locations ("source") with
   | some v => [{ location := v, run_id := ("") }]
   | none => []) ++
  (match alookup e.locations ("target") with
   | some v => [{ location := v, run_id := runId }]
   | none => [])

/-- A concrete step executor standing in for the external StepExecutor. -/
def exec0 : ResolvedEntry → StepOutcome := fun _ => ⟨("resp0"), ("msg0"), ("log0")⟩

/-! ## Helper lemmas -/

theorem listPre_self_append (l t : List Char) : listPre l (l ++ t) = true := by
  induction l with
  | nil => rfl
  | cons a as ih => simp [listPre, ih]

theorem listContains_self_append (pat t : List Char) :
    listContains pat (pat ++ t) = true := by
  cases pat with
  | nil =>
    cases t with
    | nil => rfl
    | cons a t2 => simp [listContains, listPre]
  | cons a p2 =>
    have h1 : listPre (a :: p2) (a :: (p2 ++ t)) = true := listPre_self_append (a :: p2) t
    simp [listContains, h1]

theorem strContains_self_append (p k : String) :
    strContains (String.append p k) p = true :=
  listContains_self_append p.data k.data

theorem payload_append_ne (k : String) :
    String.append ("payload.") k ≠ ("local_run_results") := by
  intro h
  have h2 := congrArg (fun s => s.data.head?) h
  have h3 : (some ('p') : Option Char) = some ('l') := h2
  exact absurd h3 (by decide)

theorem firstKeyWithVal_eq_none (l : List (String × Value)) (target : Value)
    (h : ∀ kv ∈ l, kv.2 ≠ target) : firstKeyWithVal l target = none := by
  induction l with
  | nil => rfl
  | cons kv rest ih =>
    have hv : kv.2 ≠ target := h kv (List.mem_cons_self kv rest)
    obtain ⟨k, v⟩ := kv
    simp only [firstKeyWithVal]
    rw [if_neg hv]
    exact ih (fun q hq => h q (List.mem_cons_of_mem _ hq))

theorem injectOne_id (snapshot args : List (String × Value)) (pk : String) (pv : Value)
    (h : ∀ kv ∈ snapshot, kv.2 ≠ Value.vstr (normKey pk)) :
    injectOne snapshot args pk pv = args := by
  simp [injectOne, firstKeyWithVal_eq_none snapshot _ h]

theorem injectPayload_id (snapshot : List (String × Value)) :
    ∀ (pl args : List (String × Value)),
    (∀ q ∈ pl, ∀ kv ∈ snapshot, kv.2 ≠ Value.vstr (normKey q.1)) →
    injectPayload snapshot pl args = args := by
  intro pl
  induction pl with
  | nil => intro args _; rfl
  | cons q rest ih =>
    intro args h
    simp only [injectPayload]
    rw [injectOne_id snapshot args q.1 q.2 (h q (List.mem_cons_self q rest))]
    exact ih args (fun q2 hq2 => h q2 (List.mem_cons_of_mem _ hq2))

theorem injectResultDir_id (snapshot args : List (String × Value)) (rd : String)
    (h : ∀ kv ∈ snapshot, kv.2 ≠ Value.vstr ("local_run_results")) :
    injectResultDir snapshot args rd = args := by
  simp [injectResultDir, firstKeyWithVal_eq_none snapshot _ h]

theorem locSubArgs_id (modLocs : List (String × Value)) :
    ∀ (args : List (String × Value)),
    (∀ kv ∈ args, alookup modLocs (pyStr kv.2) = none) →
    locSubArgs modLocs args = .ok (args, []) := by
  intro args
  induction args with
  | nil => intro _; rfl
  | cons kv rest ih =>
    intro h
    obtain ⟨k, v⟩ := kv
    have hv : alookup modLocs (pyStr v) = none := h (k, v) (List.mem_cons_self _ rest)
    simp only [locSubArgs]
    rw [hv, ih (fun q hq => h q (List.mem_cons_of_mem _ hq))]

theorem substituteLocations_id (wc : Workcell) (s : Step)
    (h : ∀ kv ∈ s.args, alookup (modLocsOf wc s.module) (pyStr kv.2) = none) :
    substituteLocations wc s = .ok (s, []) := by
  unfold substituteLocations
  by_cases he : (s.args.isEmpty || wc.locations.isEmpty) = true
  · rw [if_pos he]
  · rw [if_neg he]
    cases hml : alookup wc.locations s.module with
    | none => rfl
    | some ml =>
      have hml2 : modLocsOf wc s.module = ml := by simp [modLocsOf, hml]
      have hid := locSubArgs_id ml s.args (fun kv hkv => by rw [← hml2]; exact h kv hkv)
      simp [hid]

theorem substituteLocations_sig (wc : Workcell) (s s2 : Step) (locs : List (String × Value))
    (h : substituteLocations wc s = .ok (s2, locs)) : stepSig s2 = stepSig s := by
  unfold substituteLocations at h
  by_cases he : (s.args.isEmpty || wc.locations.isEmpty) = true
  · rw [if_pos he] at h
    simp only [Except.ok.injEq, Prod.mk.injEq] at h
    rw [← h.1]
  · rw [if_neg he] at h
    cases hml : alookup wc.locations s.module with
    | none =>
      simp only [hml, Except.ok.injEq, Prod.mk.injEq] at h
      rw [← h.1]
    | some ml =>
      simp only [hml] at h
      cases hsub : locSubArgs ml s.args with
      | error e =>
        simp only [hsub] at h
        exact Except.noConfusion h
      | ok pr =>
        obtain ⟨args2, locs2⟩ := pr
        simp only [hsub, Except.ok.injEq, Prod.mk.injEq] at h
        rw [← h.1]
        rfl

theorem payloadResolve_sig (p : Option (List (String × Value))) (rd : String)
    (s2 s3 : Step) (h : payloadResolve p rd s2 = some s3) : stepSig s3 = stepSig s2 := by
  unfold payloadResolve at h
  cases p with
  | none =>
    simp only [Option.some.injEq] at h
    rw [← h]
  | some pl =>
    by_cases hie : s2.args.isEmpty = true
    · simp [hie] at h
    · simp only [hie] at h
      simp only [Bool.false_eq_true, if_false, Option.some.injEq] at h
      rw [← h]
      rfl

theorem initSteps_checks (wf : Workflow) (wc : Workcell) (p : Option (List (String × Value)))
    (rd : String) (sim : Bool) :
    ∀ (steps : List Step) (r : List ResolvedEntry × List Step),
    initSteps wf wc p rd sim steps = .ok r →
    ∀ s ∈ steps, (wc.find_step_module s.module).isSome = true ∧
      wf.modules.any (fun m => decide (s.module = m.name)) = true := by
  intro steps
  induction steps with
  | nil => intro r _ s hs; cases hs
  | cons st rest ih =>
    intro r h s hs
    simp only [initSteps] at h
    cases hf : wc.find_step_module st.module with
    | none =>
      simp only [hf] at h
      exact Except.noConfusion h
    | some m =>
      simp only [hf] at h
      by_cases ha : wf.modules.any (fun mm => decide (st.module = mm.name)) = true
      · rw [if_pos ha] at h
        cases hs with
        | head =>
          refine ⟨?_, ha⟩
          rw [hf]
          rfl
        | tail _ hmem =>
          cases hrec : initSteps wf wc p rd sim rest with
          | ok r2 => exact ih r2 hrec s hmem
          | error e =>
            simp only [hrec] at h
            split at h <;> (try split at h) <;> exact Except.noConfusion h
      · rw [if_neg ha] at h
        exact Except.noConfusion h

theorem initSteps_sig (wf : Workflow) (wc : Workcell) (p : Option (List (String × Value)))
    (rd : String) (sim : Bool) :
    ∀ (steps : List Step) (entries : List ResolvedEntry) (post : List Step),
    initSteps wf wc p rd sim steps = .ok (entries, post) →
    post.map stepSig = steps.map stepSig ∧ ∀ e ∈ entries, e.step ∈ post := by
  intro steps
  induction steps with
  | nil =>
    intro entries post h
    simp only [initSteps, Except.ok.injEq, Prod.mk.injEq] at h
    obtain ⟨h1, h2⟩ := h
    subst h1
    subst h2
    simp
  | cons st rest ih =>
    intro entries post h
    simp only [initSteps] at h
    cases hf : wc.find_step_module st.module with
    | none =>
      simp only [hf] at h
      exact Except.noConfusion h
    | some m =>
      simp only [hf] at h
      by_cases ha : wf.modules.any (fun mm => decide (st.module = mm.name)) = true
      · rw [if_pos ha] at h
        cases hsub : substituteLocations wc st with
        | error e =>
          simp only [hsub] at h
          exact Except.noConfusion h
        | ok pr =>
          obtain ⟨step2, locs⟩ := pr
          simp only [hsub] at h
          have hsig2 : stepSig step2 = stepSig st :=
            substituteLocations_sig wc st step2 locs hsub
          cases hrec : initSteps wf wc p rd sim rest with
          | error e =>
            simp only [hrec] at h
            split at h <;> exact Except.noConfusion h
          | ok r2 =>
            obtain ⟨entries2, post2⟩ := r2
            obtain ⟨ihm, ihe⟩ := ih entries2 post2 hrec
            simp only [hrec] at h
            cases hpr : payloadResolve p rd step2 with
            | none =>
              simp only [hpr, Except.ok.injEq, Prod.mk.injEq] at h
              obtain ⟨h1, h2⟩ := h
              subst h1
              subst h2
              constructor
              · simp [ihm, hsig2]
              · intro e he
                exact List.mem_cons_of_mem _ (ihe e he)
            | some step3 =>
              have hsig3 : stepSig step3 = stepSig st := by
                rw [payloadResolve_sig p rd step2 step3 hpr]
                exact hsig2
              simp only [hpr, Except.ok.injEq, Prod.mk.injEq] at h
              obtain ⟨h1, h2⟩ := h
              subst h1
              subst h2
              constructor
              · simp [ihm, hsig3]
              · intro e he
                rcases List.mem_cons.mp he with he1 | he2
                · subst he1
                  exact List.mem_cons_self _ _
                · exact List.mem_cons_of_mem _ (ihe e he2)
      · rw [if_neg ha] at h
        exact Except.noConfusion h

theorem initSteps_not_ok (wf : Workflow) (wc : Workcell) (p : Option (List (String × Value)))
    (rd : String) (sim : Bool) :
    ∀ (steps : List Step) (s : Step), s ∈ steps →
    (wc.find_step_module s.module = none ∨
      wf.modules.any (fun m => decide (s.module = m.name)) = false) →
    exOk (initSteps wf wc p rd sim steps) = false := by
  intro steps
  induction steps with
  | nil => intro s hs _; cases hs
  | cons st rest ih =>
    intro s hs hbad
    cases hs with
    | head =>
      simp only [initSteps]
      cases hbad with
      | inl h1 => simp [h1, exOk]
      | inr h2 =>
        cases hf : wc.find_step_module st.module with
        | none => simp [hf, exOk]
        | some m => simp [hf, h2, exOk]
    | tail _ hmem =>
      have hrest := ih s hmem hbad
      simp only [initSteps]
      cases hf : wc.find_step_module st.module with
      | none => simp [exOk]
      | some m =>
        simp only [hf]
        by_cases ha : wf.modules.any (fun mm => decide (st.module = mm.name)) = true
        · rw [if_pos ha]
          cases hsub : substituteLocations wc st with
          | error e => simp [exOk]
          | ok pr =>
            obtain ⟨step2, locs⟩ := pr
            cases hrec : initSteps wf wc p rd sim rest with
            | ok r2 =>
              rw [hrec] at hrest
              simp [exOk] at hrest
            | error e =>
              simp only [hrec]
              cases hpr : payloadResolve p rd step2 with
              | none => simp [exOk]
              | some step3 => simp [exOk]
        · rw [if_neg ha]
          rfl

theorem runSteps_updates (exec1 : ResolvedEntry → StepOutcome) (rid : String) :
    ∀ (es : List ResolvedEntry) (hist : List (String × StepOutcome)) (upd : List LocUpdate),
    (runSteps exec1 rid es hist upd).2 = upd ++ catMap (stepLocUpdates rid) es := by
  intro es
  induction es with
  | nil => intro hist upd; simp [runSteps, catMap]
  | cons e rest ih =>
    intro hist upd
    simp only [runSteps]
    rw [ih]
    simp [catMap, stepLocUpdates, List.append_assoc]



theorem payloadResolve_some_id (pl : List (String × Value)) (rd : String) (s : Step)
    (hne : s.args.isEmpty = false)
    (hB : ∀ q ∈ pl, ∀ kv ∈ s.args, kv.2 ≠ Value.vstr (normKey q.1))
    (hC : ∀ kv ∈ s.args, kv.2 ≠ Value.vstr ("local_run_results")) :
    payloadResolve (some pl) rd s = some s := by
  simp only [payloadResolve, hne, Bool.false_eq_true, if_false, Option.some.injEq]
  rw [injectPayload_id s.args pl s.args (fun q hq kv hkv => hB q hq kv hkv)]
  rw [injectResultDir_id s.args s.args rd hC]

theorem initSteps_stable (wf : Workflow) (wc : Workcell) (p : Option (List (String × Value)))
    (rd : String) (sim : Bool) :
    ∀ (steps : List Step),
    (∀ s ∈ steps, (wc.find_step_module s.module).isSome = true ∧
      wf.modules.any (fun m => decide (s.module = m.name)) = true) →
    stepsStable wc p steps = true →
    ∃ es, initSteps wf wc p rd sim steps = .ok (es, steps) ∧
      es.all (fun e => e.locations.isEmpty) = true := by
  intro steps
  induction steps with
  | nil => intro _ _; exact ⟨[], rfl, rfl⟩
  | cons st rest ih =>
    intro hchecks hstable
    have hc1 := hchecks st (List.mem_cons_self st rest)
    have hcr : ∀ s ∈ rest, (wc.find_step_module s.module).isSome = true ∧
        wf.modules.any (fun m => decide (s.module = m.name)) = true :=
      fun s hsm => hchecks s (List.mem_cons_of_mem _ hsm)
    have hst1 : (st.args.all (fun kv => argStable wc p st.module kv.2) = true) ∧
        stepsStable wc p rest = true := by
      simpa [stepsStable, List.all_cons, Bool.and_eq_true] using hstable
    have hstE : ∀ kv ∈ st.args, argStable wc p st.module kv.2 = true := by
      have h3 := hst1.1
      rw [List.all_eq_true] at h3
      exact h3
    have hA : ∀ kv ∈ st.args, alookup (modLocsOf wc st.module) (pyStr kv.2) = none := by
      intro kv hkv
      have h4 := hstE kv hkv
      simp only [argStable, Bool.and_eq_true] at h4
      exact Option.isNone_iff_eq_none.mp h4.1
    have hsub : substituteLocations wc st = .ok (st, []) :=
      substituteLocations_id wc st hA
    obtain ⟨es, hes, hloc⟩ := ih hcr hst1.2
    obtain ⟨hfs, ha⟩ := hc1
    cases hf : wc.find_step_module st.module with
    | none =>
      rw [hf] at hfs
      simp at hfs
    | some m =>
      by_cases hie : st.args.isEmpty = true
      · cases p with
        | none =>
          refine ⟨{ locations := [], step := st, step_module := m, simulate := sim } :: es, ?_, ?_⟩
          · simp [initSteps, hf, ha, hsub, hes, payloadResolve]
          · simp [List.all_cons, hloc]
        | some pl =>
          refine ⟨es, ?_, hloc⟩
          simp [initSteps, hf, ha, hsub, hes, payloadResolve, hie]
      · have hpr : payloadResolve p rd st = some st := by
          cases p with
          | none => rfl
          | some pl =>
            apply payloadResolve_some_id pl rd st (by simpa using hie)
            · intro q hq kv hkv
              have h4 := hstE kv hkv
              simp only [argStable, Bool.and_eq_true] at h4
              have h5 := h4.2.1
              rw [List.all_eq_true] at h5
              have h6 := h5 q hq
              simpa using h6
            · intro kv hkv
              have h4 := hstE kv hkv
              simp only [argStable, Bool.and_eq_true] at h4
              have h5 := h4.2.2
              simpa using h5
        refine ⟨{ locations := [], step := st, step_module := m, simulate := sim } :: es, ?_, ?_⟩
        · simp [initSteps, hf, ha, hsub, hes, hpr]
        · simp [List.all_cons, hloc]

/-! ## Concrete inputs used by counterexamples, failing-input evaluations and
witnesses -/

/-- Workflow step for the C3 counterexample: one arg referring to location
name A of module m1. -/
def stepC3 : Step := ⟨("T"), ("m1"), ("transfer"), [(("pos"), Value.vstr ("A"))]⟩

/-- The same step as it stands after resolution: the arg now holds the
registered location value. -/
def stepC3post : Step := ⟨("T"), ("m1"), ("transfer"), [(("pos"), Value.vstr ("deckA"))]⟩

/-- One-step workflow over module m1. -/
def wfC3 : Workflow := ⟨[⟨("m1")⟩], [stepC3]⟩

/-- Workcell registering location A of module m1 with value deckA. -/
def wcC3 : Workcell := ⟨[⟨("m1")⟩], [(("m1"), [(("A"), Value.vstr ("deckA"))])]⟩

/-- Step with an empty args dict, for C4. -/
def stepC4 : Step := ⟨("A"), ("m1"), ("cmd"), []⟩

/-- One-step workflow whose only step has no args. -/
def wfC4 : Workflow := ⟨[⟨("m1")⟩], [stepC4]⟩

/-- Workcell with module m1 and no locations. -/
def wcC4 : Workcell := ⟨[⟨("m1")⟩], []⟩

/-- Two-step workflow: step A has no args, step B has one arg. -/
def wfC5 : Workflow :=
  ⟨[⟨("m1")⟩], [⟨("A"), ("m1"), ("cmd"), []⟩, ⟨("B"), ("m1"), ("cmd"), [(("x"), Value.vint 1)]⟩]⟩

/-- Workcell with module m1 and no locations. -/
def wcC5 : Workcell := ⟨[⟨("m1")⟩], []⟩

/-- Workflow whose step carries the integer 5 as an arg value, for C6. -/
def wfC6 : Workflow := ⟨[⟨("m1")⟩], [⟨("P"), ("m1"), ("cmd"), [(("pos"), Value.vint 5)]⟩]⟩

/-- Workcell registering a location literally named 5 (a string) for m1. -/
def wcC6 : Workcell := ⟨[⟨("m1")⟩], [(("m1"), [(("5"), Value.vstr ("locfive"))])]⟩

/-- Step and workflow for C7 (same shape as C3). -/
def stepC7 : Step := ⟨("T"), ("m1"), ("transfer"), [(("pos"), Value.vstr ("A"))]⟩

/-- The C7 step after the first resolution pass. -/
def stepC7post : Step := ⟨("T"), ("m1"), ("transfer"), [(("pos"), Value.vstr ("deckA"))]⟩

/-- One-step workflow over module m1, for C7. -/
def wfC7 : Workflow := ⟨[⟨("m1")⟩], [stepC7]⟩

/-- Workcell registering location A of m1, for C7. -/
def wcC7 : Workcell := ⟨[⟨("m1")⟩], [(("m1"), [(("A"), Value.vstr ("deckA"))])]⟩

/-- Step targeting module mX, which no workcell below registers. -/
def stepC8 : Step := ⟨("A"), ("mX"), ("cmd"), []⟩

/-- Workflow declaring only m1 but with a step targeting mX. -/
def wfC8 : Workflow := ⟨[⟨("m1")⟩], [stepC8]⟩

/-- Workcell containing only m1. -/
def wcC8 : Workcell := ⟨[⟨("m1")⟩], []⟩

/-- The spec's concrete transfer scenario: a step with source A and target B. -/
def wfC9 : Workflow :=
  ⟨[⟨("m1")⟩], [⟨("transfer"), ("m1"), ("transfer"),
    [(("source"), Value.vstr ("A")), (("target"), Value.vstr ("B"))]⟩]⟩

/-- Workcell registering locations A and B of m1. -/
def wcC9 : Workcell :=
  ⟨[⟨("m1")⟩], [(("m1"), [(("A"), Value.vstr ("pos00")), (("B"), Value.vstr ("pos11"))])]⟩

/-- One-step workflow whose arg value is the payload reference payload.<k>. -/
def wfC10 (k : String) : Workflow :=
  ⟨[⟨("m1")⟩], [⟨("S"), ("m1"), ("cmd"),
    [(("a"), Value.vstr (String.append ("payload.") k))]⟩]⟩

/-- Workcell with module m1 and no locations, for C10. -/
def wcC10 : Workcell := ⟨[⟨("m1")⟩], []⟩

/-- The C10 step after a successful substitution of the payload value. -/
def stepC10r (pv : Value) : Step := ⟨("S"), ("m1"), ("cmd"), [(("a"), pv)]⟩

/-- Workflow whose arg value is payload.payload.x, i.e. the reference for
the payload key payload.x (which itself contains the prefix). -/
def wfC10c : Workflow :=
  ⟨[⟨("m1")⟩], [⟨("S"), ("m1"), ("cmd"), [(("a"), Value.vstr ("payload.payload.x"))]⟩]⟩

/-! ## Claims -/

/-- C1: the claim states that the TCP dispatch adapter parses every module
response with a schema-validated deserializer and that no code path
evaluates the response text as executable code, rejecting non-conforming
responses as malformed. The code contradicts this: line 17 of
src/rpl_wei/executors/tcp_executor.py passes the received response text to
`eval`. This theorem evaluates the embedded handler at a failing input:
a response whose evaluation performs a side effect has that effect executed
(first conjunct), and a dict response missing every schema field is
accepted silently with None fields instead of being rejected (second
conjunct). -/
theorem C1_tcp_response_evaluated :
    (wei_tcp_callback (PyExpr.callEffect ("__import__(os).system(rm -rf tmp)")
        (PyExpr.dict []))).1 = [("__import__(os).system(rm -rf tmp)")] ∧
    (wei_tcp_callback (PyExpr.dict [(("foo"), Value.vint 1)])).2 =
      .ok (none, none, none) :=
  ⟨rfl, rfl⟩

/-- C2: an acquire of the action lock succeeds (IDLE → BUSY) exactly when
the module status is IDLE; a rejected acquire (status BUSY, ERROR or INIT)
answers HTTP 409 and leaves the whole module state — status and error
fields — unchanged; an accepted acquire sets status to BUSY and leaves the
error field unchanged. Hence at most one action is admitted at a time:
from BUSY no further acquire is accepted. -/
theorem C2_action_lock_acquire (st : ModuleState) :
    ((action_acquire st).accepted = true ↔ st.status = ModuleStatus.IDLE) ∧
    ((action_acquire st).accepted = true →
      (action_acquire st).state.status = ModuleStatus.BUSY ∧
      (action_acquire st).state.error = st.error) ∧
    ((action_acquire st).accepted = false →
      (action_acquire st).httpStatus = 409 ∧ (action_acquire st).state = st) := by
  obtain ⟨status, err⟩ := st
  cases status <;> simp [action_acquire, get_action_lock]

/-- C2 witness: an acquire attempt on a BUSY module answers 409 and leaves
the state unchanged. -/
theorem C2_action_lock_acquire_witness :
    (action_acquire ⟨ModuleStatus.BUSY, none⟩).httpStatus = 409 ∧
    (action_acquire ⟨ModuleStatus.BUSY, none⟩).state = ⟨ModuleStatus.BUSY, none⟩ :=
  (C2_action_lock_acquire ⟨ModuleStatus.BUSY, none⟩).2.2 rfl

/-- C3 counterexample: the claim states that resolution never mutates the
Workflow's persisted Step. On the concrete input, after `init_flow` the
flowdef's step carries the substituted location value in its args — the
post-state step differs from the original, so the persisted Step was
mutated in place (line 162 of src/wei/core/workflow.py assigns into
`step.args`). -/
theorem C3_step_args_mutated :
    init_flow wfC3 wcC3 none ("rd") false =
      .ok ([⟨[(("pos"), Value.vstr ("A"))], stepC3post, ⟨("m1")⟩, false⟩], [stepC3post]) ∧
    stepC3post.args ≠ stepC3.args :=
  ⟨rfl, by decide⟩

/-- C3 (amended): argument resolution mutates the persisted Step's args in
place — the runner's entries alias the mutated Step values rather than
fresh copies — but preserves every other Step field: after a successful
`init_flow`, the post-state flowdef agrees with the original flowdef on
name, module and command of every step (in order and length), and every
runner entry's step is one of the post-state steps. -/
theorem C3_amended_resolution_preserves_nonargs_fields (wf : Workflow) (wc : Workcell)
    (p : Option (List (String × Value))) (rd : String) (sim : Bool)
    (entries : List ResolvedEntry) (post : List Step)
    (h : init_flow wf wc p rd sim = .ok (entries, post)) :
    post.map stepSig = wf.flowdef.map stepSig ∧ ∀ e ∈ entries, e.step ∈ post := by
  unfold init_flow at h
  cases hc : checkDeclaredModules wf wc with
  | error e =>
    rw [hc] at h
    exact Except.noConfusion h
  | ok u =>
    rw [hc] at h
    exact initSteps_sig wf wc p rd sim wf.flowdef entries post h

/-- C3 amended witness: on the concrete input the post-state flowdef keeps
the original name, module and command. -/
theorem C3_amended_resolution_preserves_nonargs_fields_witness :
    List.map stepSig [stepC3post] = List.map stepSig wfC3.flowdef :=
  (C3_amended_resolution_preserves_nonargs_fields wfC3 wcC3 none ("rd") false
    [⟨[(("pos"), Value.vstr ("A"))], stepC3post, ⟨("m1")⟩, false⟩] [stepC3post] rfl).1

/-- C4: the claim states that for a step with empty (or absent) args, when
a payload dict is supplied, payload injection is a no-op and the step is
still resolved, dispatched and recorded. The code contradicts this: the
`continue` at line 167 of src/wei/core/workflow.py skips the append at
line 198, silently dropping the step. At the failing input (one empty-args
step, payload `{"foo": 1}`) `init_flow` returns an empty runner list and
`run_flow` records no outcome at all. -/
theorem C4_empty_args_step_dropped :
    init_flow wfC4 wcC4 (some [(("foo"), Value.vint 1)]) ("rd") false = .ok ([], [stepC4]) ∧
    run_flow wfC4 wcC4 (some [(("foo"), Value.vint 1)]) ("rd") ("dir") ("R1") false exec0 =
      .ok ⟨("dir"), ("R1"), some [(("foo"), Value.vint 1)], [], []⟩ :=
  ⟨rfl, rfl⟩

/-- C5: the claim states that every run's history has exactly one entry per
flowdef step, keyed by step name, in declared order. The code contradicts
this through the same dropped-step defect as C4: at the failing input
(flowdef [A, B] with A having no args, payload `{"foo": 1}`) the history
contains only B — no entry is ever recorded for A. -/
theorem C5_history_missing_dropped_step :
    run_flow wfC5 wcC5 (some [(("foo"), Value.vint 1)]) ("rd") ("dir") ("R1") false exec0 =
      .ok ⟨("dir"), ("R1"), some [(("foo"), Value.vint 1)],
           [(("B"), ⟨("resp0"), ("msg0"), ("log0")⟩)], []⟩ ∧
    wfC5.flowdef.map (fun s => s.name) = [("A"), ("B")] :=
  ⟨rfl, rfl⟩

/-- C6: the claim states that an arg whose value, as text, matches a
registered location name is replaced by the registered location value. The
code contradicts this for non-string values: line 159 of
src/wei/core/workflow.py matches `str(value)` against the location names
but line 162 then indexes the location dict with the unconverted `value`,
raising KeyError. At the failing input (arg value `5` (int), location name
`"5"`), the text form does match (second conjunct) yet resolution aborts
with KeyError instead of substituting (first conjunct). -/
theorem C6_text_match_raises_keyerror :
    init_flow wfC6 wcC6 none ("rd") false = .error ("KeyError") ∧
    pyStr (Value.vint 5) = ("5") :=
  ⟨rfl, rfl⟩

/-- C7 counterexample: the claim states that resolving the same Step twice
against the same Workcell and Payload yields identical ResolvedStep values
including the locations side-map. Because resolution mutates the Step in
place (C3), the second resolution — which the runner actually performs:
`__init__` and `run_flow` both call `init_flow` — receives the substituted
args and records an empty locations side-map, while the first records
`{"pos": "A"}`. -/
theorem C7_second_resolution_differs :
    init_flow wfC7 wcC7 none ("rd") false =
      .ok ([⟨[(("pos"), Value.vstr ("A"))], stepC7post, ⟨("m1")⟩, false⟩], [stepC7post]) ∧
    init_flow { wfC7 with flowdef := [stepC7post] } wcC7 none ("rd") false =
      .ok ([⟨[], stepC7post, ⟨("m1")⟩, false⟩], [stepC7post]) ∧
    ([(("pos"), Value.vstr ("A"))] : List (String × Value)) ≠ [] :=
  ⟨rfl, rfl, by decide⟩

/-- C7 (amended): resolution is not idempotent on the mutated Step, but
re-resolution is stable on the args: whenever `init_flow` succeeds and the
post-state steps' arg values no longer match any location name, payload
reference or the result-dir sentinel (`stepsStable`), a second `init_flow`
on the post-state flowdef returns the same flowdef unchanged — with an
empty locations side-map in every runner entry, unlike the first pass. -/
theorem C7_amended_rerun_stable_args_empty_locations (wf : Workflow) (wc : Workcell)
    (p : Option (List (String × Value))) (rd : String) (sim : Bool)
    (entries : List ResolvedEntry) (post : List Step)
    (h : init_flow wf wc p rd sim = .ok (entries, post))
    (hs : stepsStable wc p post = true) :
    postOf (init_flow { wf with flowdef := post } wc p rd sim) = some post ∧
    entriesLocsEmpty (init_flow { wf with flowdef := post } wc p rd sim) = true := by
  unfold init_flow at h
  cases hc : checkDeclaredModules wf wc with
  | error e =>
    rw [hc] at h
    exact Except.noConfusion h
  | ok u =>
    rw [hc] at h
    have hchecks := initSteps_checks wf wc p rd sim wf.flowdef (entries, post) h
    have hsig := (initSteps_sig wf wc p rd sim wf.flowdef entries post h).1
    have hmods : post.map (fun s => s.module) = wf.flowdef.map (fun s => s.module) := by
      have h2 := congrArg (List.map (fun sg : String × String × String => sg.2.1)) hsig
      rw [List.map_map, List.map_map] at h2
      exact h2
    have hchecks2 : ∀ s ∈ post, (wc.find_step_module s.module).isSome = true ∧
        wf.modules.any (fun m => decide (s.module = m.name)) = true := by
      intro s hsp
      have hm : s.module ∈ wf.flowdef.map (fun s => s.module) := by
        rw [← hmods]
        exact List.mem_map_of_mem _ hsp
      obtain ⟨s0, hs0, he0⟩ := List.mem_map.mp hm
      have h3 := hchecks s0 hs0
      exact he0 ▸ h3
    obtain ⟨es2, he2, hl2⟩ :=
      initSteps_stable { wf with flowdef := post } wc p rd sim post hchecks2 hs
    have hc2 : checkDeclaredModules { wf with flowdef := post } wc = .ok u := hc
    constructor
    · simp only [init_flow, hc2, he2, postOf]
    · simp only [init_flow, hc2, he2, entriesLocsEmpty]
      exact hl2

/-- C7 amended witness: on the concrete input the second resolution returns
the flowdef unchanged with empty locations side-maps. -/
theorem C7_amended_rerun_stable_args_empty_locations_witness :
    postOf (init_flow { wfC7 with flowdef := [stepC7post] } wcC7 none ("rd") false) =
      some [stepC7post] ∧
    entriesLocsEmpty (init_flow { wfC7 with flowdef := [stepC7post] } wcC7 none ("rd") false) =
      true :=
  C7_amended_rerun_stable_args_empty_locations wfC7 wcC7 none ("rd") false
    [⟨[(("pos"), Value.vstr ("A"))], stepC7post, ⟨("m1")⟩, false⟩] [stepC7post] rfl (by decide)

/-- C8: a workflow referencing a module absent from the bound workcell, or
absent from the workflow's own declared module list, makes `init_flow`
fail at runner construction — before any step is dispatched — and
`run_flow` fail with no step outcome ever recorded (it never produces a
RunResult). -/
theorem C8_missing_module_fails_fast (wf : Workflow) (wc : Workcell)
    (p : Option (List (String × Value))) (rd rdir rid : String) (sim : Bool)
    (exec1 : ResolvedEntry → StepOutcome) (s : Step) (hs : s ∈ wf.flowdef)
    (hbad : wc.find_step_module s.module = none ∨
      wf.modules.any (fun m => decide (s.module = m.name)) = false) :
    exOk (init_flow wf wc p rd sim) = false ∧
    exOk (run_flow wf wc p rd rdir rid sim exec1) = false := by
  have h1 : exOk (init_flow wf wc p rd sim) = false := by
    unfold init_flow
    cases hc : checkDeclaredModules wf wc with
    | error e => rfl
    | ok u => exact initSteps_not_ok wf wc p rd sim wf.flowdef s hs hbad
  refine ⟨h1, ?_⟩
  unfold run_flow
  cases hi : init_flow wf wc p rd sim with
  | error e => rfl
  | ok pr =>
    rw [hi] at h1
    simp [exOk] at h1

/-- C8 witness: a workflow whose step targets mX, absent from the workcell,
fails runner construction and records nothing. -/
theorem C8_missing_module_fails_fast_witness :
    exOk (init_flow wfC8 wcC8 none ("rd") false) = false ∧
    exOk (run_flow wfC8 wcC8 none ("rd") ("dir") ("R1") false exec0) = false :=
  C8_missing_module_fails_fast wfC8 wcC8 none ("rd") ("dir") ("R1") false exec0 stepC8
    (by decide) (Or.inl rfl)

/-- C9 counterexample: the claim states that for each of the source and
target keys in the resolved step's locations map the occupancy tracker is
told the location is now associated with this run's identifier. In the
spec's own transfer scenario the code associates only the target (B) with
the run id; the source (A) is posted with the empty run id — it is
cleared, not associated (lines 239-245 post `run_id=""` for source). -/
theorem C9_source_cleared_not_associated :
    updatesRes (run_flow wfC9 wcC9 none ("rd") ("dir") ("RUN1") false exec0) =
      [⟨Value.vstr ("A"), ("")⟩, ⟨Value.vstr ("B"), ("RUN1")⟩] ∧
    (("") : String) ≠ ("RUN1") :=
  ⟨rfl, by decide⟩

/-- C9 (amended): after each step's dispatch, in order, a source key in the
resolved step's locations map causes an occupancy update carrying the
empty run identifier (clearing the source), and a target key causes an
update carrying this run's identifier: the full update sequence of a run
is exactly the per-entry concatenation of those notifications. -/
theorem C9_amended_source_cleared_target_set (wf : Workflow) (wc : Workcell)
    (p : Option (List (String × Value))) (rd rdir rid : String) (sim : Bool)
    (exec1 : ResolvedEntry → StepOutcome) :
    updatesRes (run_flow wf wc p rd rdir rid sim exec1) =
      (match init_flow wf wc p rd sim with
       | .ok (es, _) => catMap (stepLocUpdates rid) es
       | .error _ => []) := by
  cases hi : init_flow wf wc p rd sim with
  | error e => simp [run_flow, hi, updatesRes]
  | ok pr =>
    obtain ⟨es, post⟩ := pr
    simp [run_flow, hi, updatesRes, runSteps_updates]

/-- C10 counterexample: the claim states that for an arg value
"payload.<k>", a payload entry under key "<k>" and one under key
"payload.<k>" both cause substitution. For k = "payload.x" (which itself
contains "payload."), the entry under key "<k>" is left unprefixed by the
normalization, matches nothing, and the arg keeps its literal value
instead of receiving the payload value 7. -/
theorem C10_nested_key_not_substituted :
    init_flow wfC10c wcC10 (some [(("payload.x"), Value.vint 7)]) ("rd") false =
      .ok ([⟨[], ⟨("S"), ("m1"), ("cmd"), [(("a"), Value.vstr ("payload.payload.x"))]⟩,
             ⟨("m1")⟩, false⟩],
           [⟨("S"), ("m1"), ("cmd"), [(("a"), Value.vstr ("payload.payload.x"))]⟩]) ∧
    Value.vstr ("payload.payload.x") ≠ Value.vint 7 :=
  ⟨rfl, by decide⟩

/-- C10 helper: for any payload key whose normalization equals the arg's
reference "payload.<k>", resolution substitutes the payload value into the
arg. -/
theorem C10_core (k : String) (pv : Value) (pk : String)
    (hk : normKey pk = String.append ("payload.") k) :
    init_flow (wfC10 k) wcC10 (some [(pk, pv)]) ("rd") false =
      .ok ([⟨[], stepC10r pv, ⟨("m1")⟩, false⟩], [stepC10r pv]) := by
  have hinj : injectOne [(("a"), Value.vstr (String.append ("payload.") k))]
      [(("a"), Value.vstr (String.append ("payload.") k))] pk pv = [(("a"), pv)] := by
    simp [injectOne, hk, firstKeyWithVal, aset]
  have hne : Value.vstr (String.append ("payload.") k) ≠ Value.vstr ("local_run_results") := by
    intro hv
    exact payload_append_ne k (Value.vstr.inj hv)
  have hrdir : injectResultDir [(("a"), Value.vstr (String.append ("payload.") k))]
      [(("a"), pv)] ("rd") = [(("a"), pv)] := by
    simp [injectResultDir, firstKeyWithVal, hne]
  have hpr : payloadResolve (some [(pk, pv)]) ("rd")
      (⟨("S"), ("m1"), ("cmd"), [(("a"), Value.vstr (String.append ("payload.") k))]⟩ : Step) =
      some (stepC10r pv) := by
    simp [payloadResolve, injectPayload, hinj, hrdir, stepC10r]
  simp [init_flow, checkDeclaredModules, initSteps, substituteLocations,
    Workcell.find_step_module, hpr, wfC10, wcC10]

/-- C10 (amended): a payload key is prefixed with "payload." exactly when it
does not already contain that substring; consequently, for an arg value
"payload.<k>", an entry under key "payload.<k>" always causes substitution
of the payload value into the arg, and an entry under key "<k>" causes it
exactly when "<k>" does not itself contain the substring "payload.". -/
theorem C10_amended_payload_key_normalization (k : String) (pv : Value) :
    (init_flow (wfC10 k) wcC10 (some [((String.append ("payload.") k), pv)]) ("rd") false =
      .ok ([⟨[], stepC10r pv, ⟨("m1")⟩, false⟩], [stepC10r pv])) ∧
    (strContains k ("payload.") = false →
      init_flow (wfC10 k) wcC10 (some [(k, pv)]) ("rd") false =
        .ok ([⟨[], stepC10r pv, ⟨("m1")⟩, false⟩], [stepC10r pv])) := by
  constructor
  · apply C10_core k pv (String.append ("payload.") k)
    simp [normKey, strContains_self_append]
  · intro h
    apply C10_core k pv k
    simp [normKey, h]

/-- C10 amended witness: with k = "x" and payload value 7, the entry under
the bare key substitutes. -/
theorem C10_amended_payload_key_normalization_witness :
    init_flow (wfC10 ("x")) wcC10 (some [(("x"), Value.vint 7)]) ("rd") false =
      .ok ([⟨[], stepC10r (Value.vint 7), ⟨("m1")⟩, false⟩], [stepC10r (Value.vint 7)]) :=
  (C10_amended_payload_key_normalization ("x") (Value.vint 7)).2 (by decide)

end Wei
